import Mathlib

/-!
Shallow embedding of the core of the mexc-sniper-bot Rust backend
(`src/backend-rust/src`): storage data model, pattern detector, position
manager, signed exchange client and sniping manager.  Rust `f64` values are
modelled as `ℚ`, `i64` as `Int`, effects (clock, uuid generation, network,
store) as explicit parameters and write traces.
-/

namespace MexcSniper

/-- Embeds `OrderStatus` from `src/storage/models.rs`. -/
inductive OrderStatus where
  | pending
  | open
  | filled
  | cancelled
  | error
deriving DecidableEq, Repr

/-- Embeds `OrderStatus::as_str`. -/
def OrderStatus.as_str : OrderStatus → String
  | .pending => "pending"
  | .open => "open"
  | .filled => "filled"
  | .cancelled => "cancelled"
  | .error => "error"

/-- Embeds `OrderItem` from `src/storage/models.rs`; `f64` fields are `ℚ`,
`i64` fields are `Int`. -/
structure OrderItem where
  user_id : String
  order_id : String
  symbol : String
  side : String
  order_type : String
  quantity : ℚ
  price : Option ℚ
  filled_qty : ℚ
  status : String
  timestamp : Int
  created_at : String
  updated_at : String
  mexc_order_id : Option String
  error_message : Option String
  ttl : Int
deriving DecidableEq, Repr

/-- Embeds `OrderItem::new`.  The clock and the uuid generator are effects in
Rust (`Utc::now()`, `Uuid::new_v4()`); they enter here as the explicit
parameters `genId`, `nowMillis`, `nowSecs`, `nowIso`. -/
def OrderItem.new (user_id symbol side order_type : String) (quantity : ℚ)
    (price : Option ℚ) (genId : String) (nowMillis nowSecs : Int)
    (nowIso : String) : OrderItem :=
  { user_id := user_id
    order_id := genId
    symbol := symbol
    side := side
    order_type := order_type
    quantity := quantity
    price := price
    filled_qty := 0
    status := OrderStatus.pending.as_str
    timestamp := nowMillis
    created_at := nowIso
    updated_at := nowIso
    mexc_order_id := none
    error_message := none
    ttl := nowSecs + 7776000 }

/-- Embeds `OrderItem::sort_key`: `format!("ORDER#{}#{}", timestamp, order_id)`. -/
def OrderItem.sort_key (o : OrderItem) : String :=
  "ORDER#" ++ toString o.timestamp ++ "#" ++ o.order_id

/-- Embeds `OrderItem::partition_key`. -/
def OrderItem.partition_key (o : OrderItem) : String := o.user_id

/-- Embeds `PositionItem` from `src/storage/models.rs`. -/
structure PositionItem where
  user_id : String
  position_id : String
  symbol : String
  entry_price : ℚ
  current_price : ℚ
  quantity : ℚ
  side : String
  entry_time : Int
  pnl : Option ℚ
  pnl_percentage : Option ℚ
  status : String
  updated_at : String
  ttl : Int
deriving DecidableEq, Repr

/-- Embeds `PositionItem::calculate_pnl` (`&mut self` becomes a returned
updated record; `Utc::now().to_rfc3339()` enters as `nowIso`). -/
def PositionItem.calculate_pnl (p : PositionItem) (current_price : ℚ)
    (nowIso : String) : PositionItem :=
  let price_diff : ℚ :=
    if p.side = "long" then current_price - p.entry_price
    else if p.side = "short" then p.entry_price - current_price
    else 0
  { p with
    current_price := current_price
    pnl := some (price_diff * p.quantity)
    pnl_percentage := some ((price_diff / p.entry_price) * 100)
    updated_at := nowIso }

/-- Embeds `CalendarEventItem` from `src/storage/models.rs`. -/
structure CalendarEventItem where
  user_id : String
  event_id : String
  token_name : String
  symbol : String
  launch_time : Int
  detected_pattern : String
  confidence : ℚ
  created_at : String
  status : String
  execution_time : Option Int
  executed_orders : List String
  ttl : Int
deriving DecidableEq, Repr

/-- Embeds `CalendarEventItem::sort_key`. -/
def CalendarEventItem.sort_key (e : CalendarEventItem) : String :=
  "CALENDAR#" ++ toString e.launch_time ++ "#" ++ e.event_id

/-- Embeds `DetectedPattern` from `src/trading/detector.rs`. -/
structure DetectedPattern where
  pattern_type : String
  confidence : ℚ
deriving DecidableEq, Repr

/-- Embeds `PatternDetector::is_sts_2_pattern`: the `PatternDetector` struct
carries only `min_confidence`, passed here as the first argument; the token
name argument is unused in the source (`_token`). -/
def is_sts_2_pattern (min_confidence : ℚ) (_token : String)
    (intervals : List Int) : Bool :=
  decide (3 ≤ intervals.length) && decide ((0.9 : ℚ) ≤ min_confidence)

/-- Embeds `PatternDetector::is_st_2_pattern`. -/
def is_st_2_pattern (min_confidence : ℚ) (_token : String)
    (intervals : List Int) : Bool :=
  decide (2 ≤ intervals.length) && decide (intervals.length < 3) &&
    decide ((0.8 : ℚ) ≤ min_confidence)

/-- Embeds `PatternDetector::is_tt_4_pattern`. -/
def is_tt_4_pattern (min_confidence : ℚ) (_token : String)
    (intervals : List Int) : Bool :=
  decide (intervals.length = 4) && decide ((0.7 : ℚ) ≤ min_confidence)

/-- Embeds `PatternDetector::detect_pattern`. -/
def detect_pattern (min_confidence : ℚ) (token_name : String)
    (time_intervals : List Int) : Option DetectedPattern :=
  if is_sts_2_pattern min_confidence token_name time_intervals then
    some { pattern_type := "sts:2", confidence := 0.95 }
  else if is_st_2_pattern min_confidence token_name time_intervals then
    some { pattern_type := "st:2", confidence := 0.85 }
  else if is_tt_4_pattern min_confidence token_name time_intervals then
    some { pattern_type := "tt:4", confidence := 0.75 }
  else
    none

/-- Embeds `SnipingManager::should_execute_snipe`. -/
def should_execute_snipe (pattern_confidence : ℚ) : Bool :=
  decide ((0.7 : ℚ) ≤ pattern_confidence)

/-!
HMAC-SHA256 signing pipeline (`MexcClient::create_signature` in
`src/mexc/models.rs`).  The Rust code delegates the keyed hash to the
`hmac`/`sha2` crates; those are embedded here as an executable SHA-256 and
the standard HMAC construction over byte lists (bytes are `Nat` kept `< 256`
by construction, 32-bit words are `Nat` reduced `% 2^32`).
-/

/-- Reduce to a 32-bit word. -/
def w32 (n : Nat) : Nat := n % 4294967296

/-- Right rotation of a 32-bit word. -/
def rotr (n x : Nat) : Nat := w32 ((x >>> n) ||| (x <<< (32 - n)))

/-- SHA-256 `Ch` function. -/
def shaCh (x y z : Nat) : Nat := (x &&& y) ^^^ ((x ^^^ 4294967295) &&& z)

/-- SHA-256 `Maj` function. -/
def shaMaj (x y z : Nat) : Nat := (x &&& y) ^^^ (x &&& z) ^^^ (y &&& z)

/-- SHA-256 `Σ₀`. -/
def bigSigma0 (x : Nat) : Nat := rotr 2 x ^^^ rotr 13 x ^^^ rotr 22 x

/-- SHA-256 `Σ₁`. -/
def bigSigma1 (x : Nat) : Nat := rotr 6 x ^^^ rotr 11 x ^^^ rotr 25 x

/-- SHA-256 `σ₀`. -/
def smallSigma0 (x : Nat) : Nat := rotr 7 x ^^^ rotr 18 x ^^^ (x >>> 3)

/-- SHA-256 `σ₁`. -/
def smallSigma1 (x : Nat) : Nat := rotr 17 x ^^^ rotr 19 x ^^^ (x >>> 10)

/-- SHA-256 round constants (FIPS 180-4; written in decimal). -/
def shaK : List Nat :=
  [1116352408, 1899447441, 3049323471, 3921009573,
   961987163, 1508970993, 2453635748, 2870763221,
   3624381080, 310598401, 607225278, 1426881987,
   1925078388, 2162078206, 2614888103, 3248222580,
   3835390401, 4022224774, 264347078, 604807628,
   770255983, 1249150122, 1555081692, 1996064986,
   2554220882, 2821834349, 2952996808, 3210313671,
   3336571891, 3584528711, 113926993, 338241895,
   666307205, 773529912, 1294757372, 1396182291,
   1695183700, 1986661051, 2177026350, 2456956037,
   2730485921, 2820302411, 3259730800, 3345764771,
   3516065817, 3600352804, 4094571909, 275423344,
   430227734, 506948616, 659060556, 883997877,
   958139571, 1322822218, 1537002063, 1747873779,
   1955562222, 2024104815, 2227730452, 2361852424,
   2428436474, 2756734187, 3204031479, 3329325298]

/-- SHA-256 working state: eight 32-bit words. -/
structure ShaState where
  a : Nat
  b : Nat
  c : Nat
  d : Nat
  e : Nat
  f : Nat
  g : Nat
  h : Nat

/-- SHA-256 initial hash value (FIPS 180-4; written in decimal). -/
def shaInit : ShaState :=
  ⟨1779033703, 3144134277, 1013904242, 2773480762,
   1359893119, 2600822924, 528734635, 1541459225⟩

/-- Big-endian 32-bit word from four bytes. -/
def wordOfBytes (b0 b1 b2 b3 : Nat) : Nat :=
  b0 * 16777216 + b1 * 65536 + b2 * 256 + b3

/-- The first 16 words of the message schedule, from a 64-byte block. -/
def blockWords : List Nat → List Nat
  | b0 :: b1 :: b2 :: b3 :: rest => wordOfBytes b0 b1 b2 b3 :: blockWords rest
  | _ => []

/-- Extend the message schedule by `n` further words
(`W[t] = σ₁(W[t−2]) + W[t−7] + σ₀(W[t−15]) + W[t−16] mod 2^32`). -/
def extendSchedule (w : List Nat) : Nat → List Nat
  | 0 => w
  | n + 1 =>
    extendSchedule
      (w ++ [w32 (smallSigma1 (w.getD (w.length - 2) 0) +
                  w.getD (w.length - 7) 0 +
                  smallSigma0 (w.getD (w.length - 15) 0) +
                  w.getD (w.length - 16) 0)]) n

/-- Full 64-word message schedule of one block. -/
def schedule (block : List Nat) : List Nat :=
  extendSchedule (blockWords block) 48

/-- One SHA-256 compression round with round constant `k` and schedule word
`w`. -/
def shaRound (st : ShaState) (kw : Nat × Nat) : ShaState :=
  let t1 := w32 (st.h + bigSigma1 st.e + shaCh st.e st.f st.g + kw.1 + kw.2)
  let t2 := w32 (bigSigma0 st.a + shaMaj st.a st.b st.c)
  ⟨w32 (t1 + t2), st.a, st.b, st.c, w32 (st.d + t1), st.e, st.f, st.g⟩

/-- Compress one 64-byte block into the running state. -/
def compressBlock (st : ShaState) (block : List Nat) : ShaState :=
  let fin := (shaK.zip (schedule block)).foldl shaRound st
  ⟨w32 (st.a + fin.a), w32 (st.b + fin.b), w32 (st.c + fin.c),
   w32 (st.d + fin.d), w32 (st.e + fin.e), w32 (st.f + fin.f),
   w32 (st.g + fin.g), w32 (st.h + fin.h)⟩

/-- Big-endian bytes of a 32-bit word. -/
def wordBytes (w : Nat) : List Nat :=
  [(w >>> 24) % 256, (w >>> 16) % 256, (w >>> 8) % 256, w % 256]

/-- 32-byte digest of a final state. -/
def digestBytes (st : ShaState) : List Nat :=
  wordBytes st.a ++ wordBytes st.b ++ wordBytes st.c ++ wordBytes st.d ++
  wordBytes st.e ++ wordBytes st.f ++ wordBytes st.g ++ wordBytes st.h

/-- Big-endian `n`-byte encoding of a number (most significant byte first). -/
def natBytesBE : Nat → Nat → List Nat
  | 0, _ => []
  | n + 1, v => natBytesBE n (v / 256) ++ [v % 256]

/-- SHA-256 padding: append `0x80`, zeros, and the 64-bit big-endian bit
length, reaching a multiple of 64 bytes. -/
def shaPad (msg : List Nat) : List Nat :=
  let L := msg.length
  let zeros := (64 - (L + 9) % 64) % 64
  msg ++ [128] ++ List.replicate zeros 0 ++ natBytesBE 8 ((8 * L) % 2 ^ 64)

/-- Split a padded message into 64-byte blocks. -/
def shaBlocks (l : List Nat) : List (List Nat) :=
  if l.isEmpty then [] else l.take 64 :: shaBlocks (l.drop 64)
termination_by l.length
decreasing_by
  simp only [List.length_drop]
  cases l with
  | nil => simp_all
  | cons x xs => simp only [List.length_cons]; omega

/-- SHA-256 of a byte list: 32 bytes. -/
def sha256 (msg : List Nat) : List Nat :=
  digestBytes ((shaBlocks (shaPad msg)).foldl compressBlock shaInit)

/-- HMAC-SHA256 over byte lists, as implemented by the `hmac` crate used in
`MexcClient::create_signature`: keys longer than the 64-byte block are first
hashed, shorter keys are zero-padded; inner pad `0x36`, outer pad `0x5c`. -/
def hmacSha256 (key msg : List Nat) : List Nat :=
  let key0 := if 64 < key.length then sha256 key else key
  let keyBlock := key0 ++ List.replicate (64 - key0.length) 0
  let ipad := keyBlock.map (· ^^^ 0x36)
  let opad := keyBlock.map (· ^^^ 0x5c)
  sha256 (opad ++ sha256 (ipad ++ msg))

/-- UTF-8 bytes of one character (Rust `str::as_bytes` is the UTF-8
encoding). -/
def utf8Char (c : Char) : List Nat :=
  let n := c.toNat
  if n < 128 then [n]
  else if n < 2048 then [192 ||| (n >>> 6), 128 ||| (n &&& 63)]
  else if n < 65536 then
    [224 ||| (n >>> 12), 128 ||| ((n >>> 6) &&& 63), 128 ||| (n &&& 63)]
  else
    [240 ||| (n >>> 18), 128 ||| ((n >>> 12) &&& 63),
     128 ||| ((n >>> 6) &&& 63), 128 ||| (n &&& 63)]

/-- UTF-8 bytes of a string. -/
def strBytes (s : String) : List Nat := (s.data.map utf8Char).flatten

/-- One lowercase hex digit (the `hex` crate's alphabet
`0123456789abcdef`; the argument is a nibble, i.e. `< 16`). -/
def hexDigit (n : Nat) : Char :=
  match n with
  | 0 => '0' | 1 => '1' | 2 => '2' | 3 => '3' | 4 => '4'
  | 5 => '5' | 6 => '6' | 7 => '7' | 8 => '8' | 9 => '9'
  | 10 => 'a' | 11 => 'b' | 12 => 'c' | 13 => 'd' | 14 => 'e' | 15 => 'f'
  | _ => '0'

/-- `hex::encode`: two lowercase hex digits per byte, high nibble first. -/
def hexEncode (bytes : List Nat) : String :=
  String.mk ((bytes.map fun b => [hexDigit (b / 16), hexDigit (b % 16)]).flatten)

/-- Embeds `MexcClient::create_signature`: HMAC-SHA256 of the query string
under the secret key, hex-encoded lowercase. -/
def create_signature (secret_key query_string : String) : String :=
  hexEncode (hmacSha256 (strBytes secret_key) (strBytes query_string))

/-!
`MexcClient::build_query_string` serialises a `BTreeMap<_, String>`; the
map is embedded as an association list kept strictly sorted by key, with
`btInsert` embedding `BTreeMap::insert` (sorted insert, replacing an equal
key).
-/

/-- `BTreeMap::insert` on a key-sorted association list. -/
def btInsert (k : String) (v : String) :
    List (String × String) → List (String × String)
  | [] => [(k, v)]
  | (k1, v1) :: rest =>
    if k < k1 then (k, v) :: (k1, v1) :: rest
    else if k = k1 then (k, v) :: rest
    else (k1, v1) :: btInsert k v rest

/-- A `BTreeMap` built by successive inserts, starting empty. -/
def btOfList (l : List (String × String)) : List (String × String) :=
  l.foldl (fun m kv => btInsert kv.1 kv.2 m) []

/-- Embeds `MexcClient::build_query_string`: `k=v` pairs joined by `&`, in
the map's (sorted) iteration order. -/
def build_query_string (params : List (String × String)) : String :=
  String.intercalate "&" (params.map fun kv => kv.1 ++ "=" ++ kv.2)

/-- Characters that `hex::encode` may emit: lowercase hex digits. -/
def isLowerHexChar (c : Char) : Prop :=
  (48 ≤ c.toNat ∧ c.toNat ≤ 57) ∨ (97 ≤ c.toNat ∧ c.toNat ≤ 102)

instance (c : Char) : Decidable (isLowerHexChar c) := by
  unfold isLowerHexChar; infer_instance

/-!
Exchange client request/response models (`src/mexc/models.rs`) and the
`get_ticker` control flow.  The HTTP transport and the serde JSON decoder
are external; a response enters the model as its status code together with
the result of decoding its body as a `TickerResponse` (`some` for a
well-formed body, `none` for a malformed one), and a transport failure as
the `Except.error` case.
-/

/-- Embeds `TickerResponse` from `src/mexc/models.rs`. -/
structure TickerResponse where
  symbol : String
  price : ℚ
  timestamp : Int
deriving DecidableEq, Repr

/-- Embeds `OrderResponse` from `src/mexc/models.rs`. -/
structure OrderResponse where
  order_id : String
  symbol : String
  side : String
  order_type : String
  quantity : ℚ
  price : ℚ
  status : String
  filled_qty : ℚ
  created_at : Int
deriving DecidableEq, Repr

/-- An HTTP response to the ticker request: its status code and the serde
decode result of its body against the `TickerResponse` schema. -/
structure HttpTickerResponse where
  status : Nat
  body : Option TickerResponse
deriving DecidableEq, Repr

/-- Error cases `get_ticker` can surface (the `anyhow` errors of the Rust
code, split by origin). -/
inductive TickerError where
  | transport (msg : String)
  | decode
deriving DecidableEq, Repr

/-- `reqwest::StatusCode::is_success`: `2xx`. -/
def statusIsSuccess (status : Nat) : Bool :=
  decide (200 ≤ status) && decide (status ≤ 299)

/-- Embeds the control flow of `MexcClient::get_ticker`
(`src/mexc/models.rs` lines 75–92): a transport failure propagates via `?`,
and the body is fed straight to `response.json()` — the response status is
never examined. -/
def get_ticker (response : Except String HttpTickerResponse) :
    Except TickerError TickerResponse :=
  match response with
  | .error e => .error (.transport e)
  | .ok r =>
    match r.body with
    | none => .error .decode
    | some ticker => .ok ticker

/-!
Persistence layer model (`src/storage/dynamodb.rs`).  The DynamoDB table is
a list of items keyed by (partition key `user_id`, sort key `sk`);
`put_item` is an upsert on that key and `query` with
`begins_with(sk, p)` filters the partition by sort-key prefix.
-/

/-- `begins_with` of DynamoDB / `starts-with` on character lists. -/
def beginsWith : List Char → List Char → Bool
  | [], _ => true
  | _ :: _, [] => false
  | a :: as, b :: bs => a = b && beginsWith as bs

/-- One stored order row: composite key plus the order attributes. -/
structure OrderRow where
  pk : String
  sk : String
  item : OrderItem
deriving DecidableEq, Repr

/-- `put_item` upsert semantics on the (pk, sk) key. -/
def upsertRow (row : OrderRow) : List OrderRow → List OrderRow
  | [] => [row]
  | r :: rest =>
    if r.pk = row.pk ∧ r.sk = row.sk then row :: rest
    else r :: upsertRow row rest

/-- Embeds `DynamoDBStore::put_order`: stores the order under partition key
`order.partition_key()` and sort key `order.sort_key()`. -/
def put_order (table : List OrderRow) (order : OrderItem) : List OrderRow :=
  upsertRow ⟨order.partition_key, order.sort_key, order⟩ table

/-- Embeds `DynamoDBStore::get_order`: queries
`user_id = :uid AND begins_with(sk, "ORDER#<order_id>#")` and returns the
first match, `none` otherwise. -/
def get_order (table : List OrderRow) (user_id order_id : String) :
    Option OrderItem :=
  ((table.filter fun r =>
      r.pk = user_id ∧
        beginsWith ("ORDER#" ++ order_id ++ "#").data r.sk.data).head?).map
    (·.item)

/-!
Position manager (`src/trading/manager.rs`).  `update_position_price` and
`close_position` are embedded with an explicit trace of the store writes
they perform, so that "persists the updated record" is checkable.
-/

/-- A persistence write performed by a manager operation. -/
inductive StoreWrite where
  | putOrder (order : OrderItem)
  | putPosition (position : PositionItem)
  | putCalendarEvent (event : CalendarEventItem)
deriving DecidableEq, Repr

/-- Embeds `PositionManager::update_position_price`
(`src/trading/manager.rs` lines 41–58).  The Rust body is a stub: all three
steps (query the position, recompute the pnl, save it back) are `TODO`
comments; it only logs and returns `Ok(())`, performing no store access at
all, for any input. -/
def update_position_price (_user_id _position_id : String)
    (_current_price : ℚ) : Except String Unit × List StoreWrite :=
  (.ok (), [])

/-- Embeds `PositionManager::close_position` (`src/trading/manager.rs`
lines 61–74).  Also a stub: the query / final-pnl / mark-closed steps are
`TODO` comments; it logs and returns `Ok(0.0)` with no store access. -/
def close_position (_user_id _position_id : String) (_close_price : ℚ) :
    Except String ℚ × List StoreWrite :=
  (.ok 0, [])

/-!
Sniping manager (`src/trading/sniper.rs`).  The exchange call
`mexc_client.create_order(...)` is a network effect; it enters the model as
its result (`Except`).  The uuid and the two clock readings taken during the
run enter as parameters.  The function returns the Rust `Result` together
with the ordered trace of persistence writes it performed.
-/

/-- Embeds `SnipeOrderParams` from `src/trading/sniper.rs`. -/
structure SnipeOrderParams where
  side : String
  quantity : ℚ
deriving DecidableEq, Repr

/-- Embeds `SnipingManager::execute_snipe` (`src/trading/sniper.rs` lines
21–67): build a pending `OrderItem` for the event's symbol, call the
exchange (result `mexcResult`; an error propagates via `?` before any store
access), then attach the exchange order id and status, `put_order` it,
mark the event sniped (append the order id, set `execution_time` to
`execMillis`, the `Utc::now()` reading at line 62) and `put_calendar_event`
it, returning the order id. -/
def execute_snipe (user_id : String) (event : CalendarEventItem)
    (order_params : SnipeOrderParams) (genId : String)
    (nowMillis nowSecs : Int) (nowIso : String)
    (mexcResult : Except String OrderResponse) (execMillis : Int) :
    Except String String × List StoreWrite :=
  let order := OrderItem.new user_id event.symbol order_params.side "market"
    order_params.quantity none genId nowMillis nowSecs nowIso
  match mexcResult with
  | .error e => (.error e, [])
  | .ok mexc_response =>
    let updated_order :=
      { order with
        mexc_order_id := some mexc_response.order_id
        status := mexc_response.status }
    let updated_event :=
      { event with
        status := "sniped"
        executed_orders := event.executed_orders ++ [updated_order.order_id]
        execution_time := some execMillis }
    (.ok updated_order.order_id,
     [.putOrder updated_order, .putCalendarEvent updated_event])

/-!
Theorems.
-/

/-- C1: when the exchange client's `create_order` succeeds, `execute_snipe`
returns the new order's id and performs exactly two persistence writes, in
order: first the `OrderItem` carrying the exchange-assigned order id and
exchange-reported status, then the `CalendarEventItem` with status
`"sniped"`, the new order id in `executed_orders`, and `execution_time`
set. -/
theorem execute_snipe_success (user_id : String) (event : CalendarEventItem)
    (params : SnipeOrderParams) (genId : String) (nowMillis nowSecs : Int)
    (nowIso : String) (resp : OrderResponse) (execMillis : Int) :
    ∃ o e,
      execute_snipe user_id event params genId nowMillis nowSecs nowIso
          (Except.ok resp) execMillis =
        (Except.ok o.order_id,
         [StoreWrite.putOrder o, StoreWrite.putCalendarEvent e]) ∧
      o.mexc_order_id = some resp.order_id ∧
      o.status = resp.status ∧
      e.status = "sniped" ∧
      o.order_id ∈ e.executed_orders ∧
      e.execution_time = some execMillis := by
  refine ⟨_, _, rfl, rfl, rfl, rfl, ?_, rfl⟩
  simp [OrderItem.new]

/-- C2: when the exchange client's `create_order` fails, `execute_snipe`
propagates that error unchanged and performs no persistence write, leaving
the calendar event untouched. -/
theorem execute_snipe_failure (user_id : String) (event : CalendarEventItem)
    (params : SnipeOrderParams) (genId : String) (nowMillis nowSecs : Int)
    (nowIso : String) (err : String) (execMillis : Int) :
    execute_snipe user_id event params genId nowMillis nowSecs nowIso
        (Except.error err) execMillis =
      (Except.error err, []) := rfl

/-- C4: `detect_pattern` follows exactly the three-rule precedence table
(≥3 intervals with min_confidence ≥ 0.9 → sts:2 at 0.95; exactly 2 with
≥ 0.8 → st:2 at 0.85; exactly 4 with ≥ 0.7 → tt:4 at 0.75; otherwise
none), and `[1000, 2000, 3000]` with min_confidence 0.8 yields no
pattern. -/
theorem detect_pattern_rules (mc : ℚ) (token : String) (l : List Int) :
    detect_pattern mc token l =
      (if 3 ≤ l.length ∧ (0.9 : ℚ) ≤ mc then
        some { pattern_type := "sts:2", confidence := 0.95 }
      else if l.length = 2 ∧ (0.8 : ℚ) ≤ mc then
        some { pattern_type := "st:2", confidence := 0.85 }
      else if l.length = 4 ∧ (0.7 : ℚ) ≤ mc then
        some { pattern_type := "tt:4", confidence := 0.75 }
      else none) ∧
    detect_pattern 0.8 token [1000, 2000, 3000] = none := by
  constructor
  · simp only [detect_pattern, is_sts_2_pattern, is_st_2_pattern,
      is_tt_4_pattern, Bool.and_eq_true, decide_eq_true_eq]
    split_ifs <;> simp_all <;> omega
  · simp only [detect_pattern, is_sts_2_pattern, is_st_2_pattern,
      is_tt_4_pattern, Bool.and_eq_true, decide_eq_true_eq]
    norm_num

/-- C10: the classification of `detect_pattern` depends only on the number
of intervals and on the configured min_confidence — never on the token name
or interval values. -/
theorem detect_pattern_length_only (mc : ℚ) (t1 t2 : String)
    (l1 l2 : List Int) (h : l1.length = l2.length) :
    detect_pattern mc t1 l1 = detect_pattern mc t2 l2 := by
  simp only [detect_pattern, is_sts_2_pattern, is_st_2_pattern,
    is_tt_4_pattern, h]

/-- Witness for C10 at a concrete input pair. -/
theorem detect_pattern_length_only_witness :
    ([10, 20] : List Int).length = ([5000, 9999] : List Int).length ∧
    detect_pattern 0.8 "VFARM" [10, 20] =
      detect_pattern 0.8 "OTHERTOKEN" [5000, 9999] :=
  ⟨rfl, detect_pattern_length_only 0.8 "VFARM" "OTHERTOKEN" [10, 20]
    [5000, 9999] rfl⟩

/-- C9: for side `"long"`, `calculate_pnl` sets
`pnl = (current − entry) × quantity`; for side `"short"`,
`pnl = (entry − current) × quantity`; in both cases
`pnl_percentage = (price_delta / entry_price) × 100`. -/
theorem calculate_pnl_formula (p : PositionItem) (cp : ℚ) (iso : String)
    (_hentry : p.entry_price ≠ 0) :
    (p.side = "long" →
      (p.calculate_pnl cp iso).pnl = some ((cp - p.entry_price) * p.quantity) ∧
      (p.calculate_pnl cp iso).pnl_percentage =
        some ((cp - p.entry_price) / p.entry_price * 100)) ∧
    (p.side = "short" →
      (p.calculate_pnl cp iso).pnl = some ((p.entry_price - cp) * p.quantity) ∧
      (p.calculate_pnl cp iso).pnl_percentage =
        some ((p.entry_price - cp) / p.entry_price * 100)) := by
  constructor <;> intro hside <;> simp [PositionItem.calculate_pnl, hside]

/-- Witness for C9 at the two concrete examples of the claim: long
entry 100 → 110 with quantity 2 gives pnl 20 and 10%, short entry 100 → 90
with quantity 2 gives pnl 20 and 10%. -/
theorem calculate_pnl_formula_witness :
    ((100 : ℚ) ≠ 0) ∧
    (PositionItem.calculate_pnl
        ⟨"u", "p1", "AAAUSDT", 100, 100, 2, "long", 0, none, none, "open",
         "t0", 0⟩ 110 "t1").pnl = some 20 ∧
    (PositionItem.calculate_pnl
        ⟨"u", "p1", "AAAUSDT", 100, 100, 2, "long", 0, none, none, "open",
         "t0", 0⟩ 110 "t1").pnl_percentage = some 10 ∧
    (PositionItem.calculate_pnl
        ⟨"u", "p2", "AAAUSDT", 100, 100, 2, "short", 0, none, none, "open",
         "t0", 0⟩ 90 "t1").pnl = some 20 ∧
    (PositionItem.calculate_pnl
        ⟨"u", "p2", "AAAUSDT", 100, 100, 2, "short", 0, none, none, "open",
         "t0", 0⟩ 90 "t1").pnl_percentage = some 10 := by
  have h1 := calculate_pnl_formula
    ⟨"u", "p1", "AAAUSDT", 100, 100, 2, "long", 0, none, none, "open",
     "t0", 0⟩ 110 "t1" (by norm_num)
  have h2 := calculate_pnl_formula
    ⟨"u", "p2", "AAAUSDT", 100, 100, 2, "short", 0, none, none, "open",
     "t0", 0⟩ 90 "t1" (by norm_num)
  obtain ⟨hl, -⟩ := h1
  obtain ⟨-, hs⟩ := h2
  have hl' := hl rfl
  have hs' := hs rfl
  refine ⟨by norm_num, ?_, ?_, ?_, ?_⟩
  · have := hl'.1; norm_num at this ⊢; exact this
  · have := hl'.2; norm_num at this ⊢; exact this
  · have := hs'.1; norm_num at this ⊢; exact this
  · have := hs'.2; norm_num at this ⊢; exact this

/-- C6 (code bug): `update_position_price` is a stub — for any input,
including a position id that exists nowhere, it returns `Ok(())` without
raising `NotFoundError` and performs no persistence write. -/
theorem update_position_price_is_stub :
    update_position_price "user-1" "missing-position" 110 =
      (Except.ok (), []) := rfl

/-- C7 (code bug): `close_position` is a stub — it returns a realized pnl of
`0.0` regardless of the position and close price, performs no persistence
write, and never sets any status to closed. -/
theorem close_position_is_stub :
    close_position "user-1" "pos-1" 110 = (Except.ok 0, []) := rfl

/-- C5 (code bug): `put_order` stores an order under sort key
`ORDER#<timestamp>#<order_id>`, but `get_order` queries the prefix
`ORDER#<order_id>#`, so the lookup misses the freshly stored order. -/
theorem get_order_misses_stored_order :
    put_order []
        ⟨"user-1", "abc", "BTCUSDT", "buy", "market", 1, none, 0, "pending",
         1700000000000, "t0", "t0", none, none, 0⟩ =
      [⟨"user-1", "ORDER#1700000000000#abc",
        ⟨"user-1", "abc", "BTCUSDT", "buy", "market", 1, none, 0, "pending",
         1700000000000, "t0", "t0", none, none, 0⟩⟩] ∧
    get_order
        (put_order []
          ⟨"user-1", "abc", "BTCUSDT", "buy", "market", 1, none, 0, "pending",
           1700000000000, "t0", "t0", none, none, 0⟩)
        "user-1" "abc" = none := by
  exact ⟨by decide, by decide⟩

/-- The digest of any SHA-256 state has 32 bytes. -/
theorem length_digestBytes (st : ShaState) : (digestBytes st).length = 32 := rfl

/-- SHA-256 always produces a 32-byte digest. -/
theorem sha256_length (msg : List Nat) : (sha256 msg).length = 32 :=
  length_digestBytes _

/-- HMAC-SHA256 always produces a 32-byte digest. -/
theorem hmacSha256_length (key msg : List Nat) :
    (hmacSha256 key msg).length = 32 :=
  sha256_length _

/-- The character list underlying `hexEncode` has two characters per byte. -/
theorem hexChars_length (bytes : List Nat) :
    ((bytes.map fun b => [hexDigit (b / 16), hexDigit (b % 16)]).flatten).length
      = 2 * bytes.length := by
  induction bytes with
  | nil => rfl
  | cons b bs ih =>
    simp only [List.map_cons, List.flatten_cons, List.length_append,
      List.length_cons, List.length_nil, List.length_map, ih]
    omega

/-- `hexEncode` emits two characters per byte. -/
theorem hexEncode_length (bytes : List Nat) :
    (hexEncode bytes).length = 2 * bytes.length :=
  hexChars_length bytes

/-- Every character `hexDigit` can emit is a lowercase hex digit. -/
theorem hexDigit_lowerHex (n : Nat) : isLowerHexChar (hexDigit n) := by
  unfold hexDigit
  split <;> decide

/-- Every character of a `hexEncode` output is a lowercase hex digit. -/
theorem hexEncode_chars (bytes : List Nat) :
    ∀ c ∈ (hexEncode bytes).data, isLowerHexChar c := by
  intro c hc
  simp only [hexEncode, List.mem_flatten, List.mem_map] at hc
  obtain ⟨l, ⟨b, -, rfl⟩, hcl⟩ := hc
  simp only [List.mem_cons, List.not_mem_nil, or_false] at hcl
  rcases hcl with h | h <;> (rw [h]; exact hexDigit_lowerHex _)

/-- Keys after a `btInsert` are the inserted key or keys already present. -/
theorem btInsert_keys (k v : String) (l : List (String × String)) :
    ∀ x ∈ (btInsert k v l).map Prod.fst, x = k ∨ x ∈ l.map Prod.fst := by
  induction l with
  | nil =>
    intro x hx
    simp only [btInsert, List.map_cons, List.map_nil, List.mem_singleton] at hx
    exact Or.inl hx
  | cons p rest ih =>
    obtain ⟨k1, v1⟩ := p
    intro x hx
    simp only [btInsert] at hx
    split_ifs at hx with h1 h2
    · simp only [List.map_cons, List.mem_cons] at hx
      rcases hx with h | h | h
      · exact Or.inl h
      · exact Or.inr (by simp [h])
      · exact Or.inr (by simp [h])
    · simp only [List.map_cons, List.mem_cons] at hx
      rcases hx with h | h
      · exact Or.inl h
      · exact Or.inr (by simp [h])
    · simp only [List.map_cons, List.mem_cons] at hx
      rcases hx with h | h
      · exact Or.inr (by simp [h])
      · rcases ih x h with h' | h'
        · exact Or.inl h'
        · exact Or.inr (by simp [h'])

/-- `btInsert` preserves strict sortedness of the key column — the
`BTreeMap` invariant. -/
theorem btInsert_sorted (k v : String) (l : List (String × String))
    (h : List.Sorted (· < ·) (l.map Prod.fst)) :
    List.Sorted (· < ·) ((btInsert k v l).map Prod.fst) := by
  induction l with
  | nil => simp [btInsert]
  | cons p rest ih =>
    obtain ⟨k1, v1⟩ := p
    simp only [List.map_cons, List.sorted_cons] at h
    obtain ⟨hk1, hrest⟩ := h
    simp only [btInsert]
    split_ifs with h1 h2
    · simp only [List.map_cons, List.sorted_cons]
      refine ⟨?_, ?_⟩
      · intro b hb
        rcases List.mem_cons.mp hb with rfl | hb'
        · exact h1
        · exact lt_trans h1 (hk1 b hb')
      · exact ⟨hk1, hrest⟩
    · subst h2
      simp only [List.map_cons, List.sorted_cons]
      exact ⟨hk1, hrest⟩
    · simp only [List.map_cons, List.sorted_cons]
      refine ⟨?_, ih hrest⟩
      intro b hb
      rcases btInsert_keys k v rest b hb with rfl | hb'
      · exact lt_of_le_of_ne (le_of_not_lt h1) (Ne.symm h2)
      · exact hk1 b hb'

/-- A map built by `btOfList` has strictly sorted keys. -/
theorem btOfList_sorted (l : List (String × String)) :
    List.Sorted (· < ·) ((btOfList l).map Prod.fst) := by
  suffices H : ∀ acc : List (String × String),
      List.Sorted (· < ·) (acc.map Prod.fst) →
      List.Sorted (· < ·)
        ((l.foldl (fun m kv => btInsert kv.1 kv.2 m) acc).map Prod.fst) by
    simpa [btOfList] using H [] (by simp)
  induction l with
  | nil => intro acc hacc; exact hacc
  | cons kv rest ih =>
    intro acc hacc
    exact ih _ (btInsert_sorted kv.1 kv.2 acc hacc)

/-- C3: the signing pipeline serialises a parameter map as `key=value`
pairs joined by `&` with the keys kept in strictly sorted (lexicographic)
order, and `create_signature` is a deterministic function of the secret key
and the serialised string whose output always has exactly 64 lowercase
hexadecimal characters. -/
theorem signing_pipeline_spec (secret : String)
    (inserts m1 m2 : List (String × String)) (hm : m1 = m2) :
    List.Sorted (· < ·) ((btOfList inserts).map Prod.fst) ∧
    build_query_string (btOfList inserts) =
      String.intercalate "&"
        ((btOfList inserts).map fun kv => kv.1 ++ "=" ++ kv.2) ∧
    create_signature secret (build_query_string m1) =
      create_signature secret (build_query_string m2) ∧
    (create_signature secret
        (build_query_string (btOfList inserts))).length = 64 ∧
    ∀ c ∈ (create_signature secret
        (build_query_string (btOfList inserts))).data,
      isLowerHexChar c := by
  refine ⟨btOfList_sorted inserts, rfl, by rw [hm], ?_, ?_⟩
  · show (hexEncode (hmacSha256 _ _)).length = 64
    rw [hexEncode_length, hmacSha256_length]
  · exact hexEncode_chars _

/-- Witness for C3 at a concrete secret and parameter map. -/
theorem signing_pipeline_spec_witness :
    (create_signature "test-secret"
        (build_query_string
          (btOfList [("symbol", "ETHUSDT"), ("side", "BUY")]))).length = 64 :=
  (signing_pipeline_spec "test-secret" [("symbol", "ETHUSDT"), ("side", "BUY")]
    [("a", "1")] [("a", "1")] rfl).2.2.2.1

/-- C8 counterexample: a response with non-success status 500 whose body is
a well-formed ticker makes `get_ticker` return the ticker successfully — it
does not fail with an upstream error. -/
theorem get_ticker_status_counterexample :
    statusIsSuccess 500 = false ∧
    get_ticker (Except.ok ⟨500, some ⟨"BTCUSDT", 100, 1⟩⟩) =
      Except.ok ⟨"BTCUSDT", 100, 1⟩ := ⟨rfl, rfl⟩

/-- C8 (amended): `get_ticker` never inspects the HTTP status — for any
status it returns the ticker exactly when the body decodes, fails with a
decode error exactly when the body is malformed, and propagates transport
failures. -/
theorem get_ticker_decode_only (s : Nat) (b : Option TickerResponse)
    (e : String) :
    get_ticker (Except.ok ⟨s, b⟩) =
      (match b with
       | some t => Except.ok t
       | none => Except.error TickerError.decode) ∧
    get_ticker (Except.error e) = Except.error (TickerError.transport e) := by
  refine ⟨?_, rfl⟩
  cases b <;> rfl

end MexcSniper
